import Mathlib

/-
Verification of the component execution engine in `src/vgtk/src/component.rs`.

The embedding models `ComponentTask::process` as a pure function over an
explicit list of stream-poll outcomes (the merged channel's answers to
`Stream::poll_next`), threading the task state and recording an effect trace
(calls to `update`, `change`, the lifecycle hooks, `view`, `mute`, `patch`,
`unmute`, and spawned deferred jobs).  The external patcher
(`State::patch`) is a parameter `patchF : UI → V → Bool × UI`, mirroring its
boolean success result; the component trait is a record of its methods, with
`change` returning `Except String` so that the panicking default
implementation (`unimplemented!`) is representable as an `error` value.
-/

namespace Vgtk

/-- Rust `UpdateAction::Defer` boxes a future whose eventual output is one
component message; the model keeps only that eventual result. -/
structure Job (Msg : Type) where
  result : Msg
deriving DecidableEq, Repr

/-- Rust enum `UpdateAction<C>`: `None`, `Render`, `Defer(job)`. -/
inductive UpdateAction (Msg : Type) where
  | none
  | render
  | defer (job : Job Msg)
deriving DecidableEq, Repr

/-- Rust enum `ComponentMessage<C>`: `Update`, `Props`, `Mounted`, `Unmounted`. -/
inductive ComponentMessage (Msg Props : Type) where
  | update (msg : Msg)
  | props (p : Props)
  | mounted
  | unmounted
deriving DecidableEq, Repr

/-- One outcome of polling the merged stream, mirroring
`Stream::poll_next`: an envelope is ready, the stream is exhausted
(`Poll::Ready(None)`, all senders dropped), or no envelope is currently
available (`Poll::Pending`). -/
inductive PollEvent (Msg Props : Type) where
  | ready (m : ComponentMessage Msg Props)
  | closed
  | pending
deriving DecidableEq, Repr

/-- The methods of the Rust `Component` trait needed by the task loop.
`update` and `change` return the successor state together with the
`UpdateAction` (Rust mutates `self` in place); `change` may fail, which
models the panicking default implementation. -/
structure ComponentImpl (S Msg Props V : Type) where
  update : S → Msg → S × UpdateAction Msg
  change : S → Props → Except String (S × UpdateAction Msg)
  mountedHook : S → S
  unmountedHook : S → S
  view : S → V

/-- Panic message of the default `Component::change` implementation:
`unimplemented!("add a Component::change() implementation")`.  Rust's
`unimplemented!` prefixes the payload with `not implemented: `.  The string
is a constant of the trait definition, independent of the component type. -/
def changeUnimplementedMessage : String :=
  "not implemented: add a Component::change() implementation"

/-- The default `Component::change` implementation, which panics. -/
def defaultChange (S Msg Props : Type) : S → Props → Except String (S × UpdateAction Msg) :=
  fun _ _ => Except.error changeUnimplementedMessage

/-- Observable effects performed by one drive pass of the task loop, in
order of occurrence. -/
inductive Effect (Msg : Type) where
  | callUpdate
  | callChange
  | spawn (result : Msg)
  | callMounted
  | callUnmounted
  | callUnmount
  | callView
  | mute
  | callPatch
  | unmute
deriving DecidableEq, Repr

/-- Result of one drive pass, mirroring `Poll<()>` plus the two model-level
extras: `panicked` for a Rust panic (`unimplemented!`) and `outOfEvents`
when the supplied poll-event list is exhausted mid-loop (a model artifact:
the real stream always answers a poll). -/
inductive ProcessResult where
  | pending
  | ready
  | panicked (msg : String)
  | outOfEvents
deriving DecidableEq, Repr

/-- The owned state of `ComponentTask` (minus the stream, which the model
supplies as the poll-event list): the scope's display name (the component
type name), the parent scope (type-erased, modelled by its name), the
component state and the optional rendered-object marker `ui_state`. -/
structure ComponentTask (S UI : Type) where
  scopeName : String
  parent_scope : Option String
  state : S
  ui_state : Option UI
deriving DecidableEq, Repr

/-- Panic message of the failed-patch branch:
`unimplemented!("{}: don't know how to propagate failed patch", self.scope.name())`. -/
def patchFailMessage (scopeName : String) : String :=
  "not implemented: " ++ scopeName ++ ": don\x27t know how to propagate failed patch"

/-- Handling of one drained envelope in the `Poll::Ready(Some(msg))` arm of
`ComponentTask::process`.  `Sum.inl (ts, b, tr)` means the loop continues
with new task state `ts`, `b = true` when this transition requested a
render, and effect trace `tr`; `Sum.inr` means the loop returns (the
`Unmounted` arm, or a panic inside `change`). -/
def handleMsg {S Msg Props V UI : Type} (impl : ComponentImpl S Msg Props V)
    (ts : ComponentTask S UI) :
    ComponentMessage Msg Props →
      (ComponentTask S UI × Bool × List (Effect Msg)) ⊕
        (ProcessResult × ComponentTask S UI × List (Effect Msg))
  | ComponentMessage.update m =>
    match impl.update ts.state m with
    | (s1, UpdateAction.defer j) =>
      Sum.inl ({ ts with state := s1 }, false, [Effect.callUpdate, Effect.spawn j.result])
    | (s1, UpdateAction.render) =>
      Sum.inl ({ ts with state := s1 }, true, [Effect.callUpdate])
    | (s1, UpdateAction.none) =>
      Sum.inl ({ ts with state := s1 }, false, [Effect.callUpdate])
  | ComponentMessage.props p =>
    match impl.change ts.state p with
    | Except.error msg => Sum.inr (ProcessResult.panicked msg, ts, [Effect.callChange])
    | Except.ok (s1, UpdateAction.defer j) =>
      Sum.inl ({ ts with state := s1 }, false, [Effect.callChange, Effect.spawn j.result])
    | Except.ok (s1, UpdateAction.render) =>
      Sum.inl ({ ts with state := s1 }, true, [Effect.callChange])
    | Except.ok (s1, UpdateAction.none) =>
      Sum.inl ({ ts with state := s1 }, false, [Effect.callChange])
  | ComponentMessage.mounted =>
    Sum.inl ({ ts with state := impl.mountedHook ts.state }, false, [Effect.callMounted])
  | ComponentMessage.unmounted =>
    match ts.ui_state with
    | some _ =>
      Sum.inr (ProcessResult.ready,
        { ts with state := impl.unmountedHook ts.state, ui_state := none },
        [Effect.callUnmount, Effect.callUnmounted])
    | none =>
      Sum.inr (ProcessResult.ready,
        { ts with state := impl.unmountedHook ts.state },
        [Effect.callUnmounted])

/-- The `Poll::Pending if render` arm of `ComponentTask::process`: if the
marker is present, derive one view, mute the scope, run one patch, and
either unmute and suspend or panic on patch failure; if the marker is
absent, conclude. -/
def renderStep {S Msg Props V UI : Type} (impl : ComponentImpl S Msg Props V)
    (patchF : UI → V → Bool × UI) (ts : ComponentTask S UI) :
    ProcessResult × ComponentTask S UI × List (Effect Msg) :=
  match ts.ui_state with
  | some ui =>
    match patchF ui (impl.view ts.state) with
    | (true, ui1) =>
      (ProcessResult.pending, { ts with ui_state := some ui1 },
        [Effect.callView, Effect.mute, Effect.callPatch, Effect.unmute])
    | (false, _) =>
      (ProcessResult.panicked (patchFailMessage ts.scopeName), ts,
        [Effect.callView, Effect.mute, Effect.callPatch])
  | none => (ProcessResult.ready, ts, [])

/-- The loop of `ComponentTask::process`, with the `render` flag threaded
explicitly (Rust's `let mut render = false` local). -/
def processLoop {S Msg Props V UI : Type} (impl : ComponentImpl S Msg Props V)
    (patchF : UI → V → Bool × UI) :
    ComponentTask S UI → List (PollEvent Msg Props) → Bool →
      ProcessResult × ComponentTask S UI × List (Effect Msg)
  | ts, [], _ => (ProcessResult.outOfEvents, ts, [])
  | ts, PollEvent.ready m :: rest, b =>
    match handleMsg impl ts m with
    | Sum.inl (ts1, b1, tr) =>
      let out := processLoop impl patchF ts1 rest (b || b1)
      (out.1, out.2.1, tr ++ out.2.2)
    | Sum.inr done => done
  | ts, PollEvent.pending :: _, b =>
    if b then renderStep impl patchF ts else (ProcessResult.pending, ts, [])
  | ts, PollEvent.closed :: _, _ => (ProcessResult.ready, ts, [])

/-- Entry point of one drive pass: `ComponentTask::process` starts with
`render = false`. -/
def ComponentTask.process {S Msg Props V UI : Type} (impl : ComponentImpl S Msg Props V)
    (patchF : UI → V → Bool × UI) (ts : ComponentTask S UI)
    (events : List (PollEvent Msg Props)) :
    ProcessResult × ComponentTask S UI × List (Effect Msg) :=
  processLoop impl patchF ts events false

/-- Draining a list of envelopes without reaching a returning arm: folds
`handleMsg` over the list, collecting the final task state, whether any
transition requested a render, and the effect trace.  `none` when some
envelope hits a returning arm (`Unmounted`, or a panicking `change`). -/
def drain {S Msg Props V UI : Type} (impl : ComponentImpl S Msg Props V) :
    ComponentTask S UI → List (ComponentMessage Msg Props) →
      Option (ComponentTask S UI × Bool × List (Effect Msg))
  | ts, [] => some (ts, false, [])
  | ts, m :: rest =>
    match handleMsg (V := V) impl ts m with
    | Sum.inl (ts1, b1, tr) =>
      (drain impl ts1 rest).map fun out => (out.1, b1 || out.2.1, tr ++ out.2.2)
    | Sum.inr _ => none

/-- Number of `view()` calls recorded in a trace. -/
def viewCount {Msg : Type} : List (Effect Msg) → Nat
  | [] => 0
  | Effect.callView :: rest => viewCount rest + 1
  | _ :: rest => viewCount rest

/-- Number of `patch()` calls recorded in a trace. -/
def patchCount {Msg : Type} : List (Effect Msg) → Nat
  | [] => 0
  | Effect.callPatch :: rest => patchCount rest + 1
  | _ :: rest => patchCount rest

/-- Number of `mounted()` hook invocations recorded in a trace. -/
def mountedCount {Msg : Type} : List (Effect Msg) → Nat
  | [] => 0
  | Effect.callMounted :: rest => mountedCount rest + 1
  | _ :: rest => mountedCount rest

/-- Effects that are not part of a view/patch pass: everything except
`callView`, `mute`, `callPatch`, `unmute`. -/
def benignEffect {Msg : Type} : Effect Msg → Bool
  | Effect.callView => false
  | Effect.mute => false
  | Effect.callPatch => false
  | Effect.unmute => false
  | _ => true

/-- Shape of the effect trace of one drive pass: a patch-free, mute-free
section for the drained envelopes, optionally followed by exactly one
view/patch pass, which is `view, mute, patch, unmute` when the patch
succeeds, and `view, mute, patch` ending in a panic when it fails. -/
def TraceShape {Msg : Type} (r : ProcessResult) (tr : List (Effect Msg)) : Prop :=
  ∃ pre, (∀ e ∈ pre, benignEffect e = true) ∧
    (tr = pre ∨
     tr = pre ++ [Effect.callView, Effect.mute, Effect.callPatch, Effect.unmute] ∨
     (tr = pre ++ [Effect.callView, Effect.mute, Effect.callPatch] ∧
       ∃ s, r = ProcessResult.panicked s))

/-- The two mpsc channels created in `PartialComponentTask::new`: the
user-message channel (fed by the Scope's `send_message`) and the system
channel (fed by the `ComponentMessage` sender).  Each is FIFO, modelled as
a list. -/
structure Channels (Msg Props : Type) where
  user : List Msg
  sys : List (ComponentMessage Msg Props)
deriving DecidableEq, Repr

/-- `Scope::send_message`: enqueue a user message on the task's
user-message channel. -/
def sendMessage {Msg Props : Type} (ch : Channels Msg Props) (m : Msg) : Channels Msg Props :=
  { ch with user := ch.user ++ [m] }

/-- `ComponentTask::run_job`: spawn the deferred job on the ambient main
context; on completion it performs `scope.send_message(job.await)`,
i.e. the job's result message is sent through the task's own Scope into
the user-message channel. -/
def run_job {Msg Props : Type} (ch : Channels Msg Props) (job : Job Msg) : Channels Msg Props :=
  sendMessage ch job.result

/-- Which origin of the merged stream the scheduler polls next:
`select(user_recv.map(ComponentMessage::Update), sys_recv)` is a fair
two-way merge, so the interleaving is a free choice. -/
inductive MergeChoice where
  | user
  | sys
deriving DecidableEq, Repr

/-- One step of the merged stream built in `PartialComponentTask::new`: an
item drained from the user channel is wrapped as a `ComponentMessage::Update`
envelope (`user_recv.map(ComponentMessage::Update)`); an item from the
system channel is passed through unchanged. -/
def mergedNext {Msg Props : Type} (ch : Channels Msg Props) :
    MergeChoice → Option (ComponentMessage Msg Props × Channels Msg Props)
  | MergeChoice.user =>
    match ch.user with
    | [] => none
    | m :: rest => some (ComponentMessage.update m, { ch with user := rest })
  | MergeChoice.sys =>
    match ch.sys with
    | [] => none
    | m :: rest => some (m, { ch with sys := rest })

/-- A weak reference as created by `object.downgrade()`. GC liveness is
outside the model: `target` is `none` only for a reference whose object
was released. -/
structure WeakRef (Obj : Type) where
  target : Option Obj
deriving DecidableEq, Repr

/-- Upgrade a weak reference, as done by `current_object()`. -/
def WeakRef.upgrade {Obj : Type} (w : WeakRef Obj) : Option Obj :=
  w.target

/-- Downgrade a live object to a weak reference. -/
def downgrade {Obj : Type} (o : Obj) : WeakRef Obj :=
  { target := some o }

/-- The thread-local `LocalContext` frame: the task's parent scope
(type-erased, modelled by its name) and a weak reference to the task's
current rendered object. -/
structure LocalContext (Obj : Type) where
  parent_scope : Option String
  current_object : Option (WeakRef Obj)
deriving DecidableEq, Repr

/-- `Default::default()` for `LocalContext`: both fields empty. -/
def localContextDefault (Obj : Type) : LocalContext Obj :=
  { parent_scope := none, current_object := none }

/-- The free function `current_object()`: read the frame's
`current_object` field and upgrade it; fails soft (`none`) when no frame
is installed or the object is gone. -/
def currentObject {Obj : Type} (lctx : LocalContext Obj) : Option Obj :=
  match lctx.current_object with
  | none => none
  | some w => w.upgrade

/-- The `Future::poll` implementation of `ComponentTask`: overwrite the
thread-local frame with this task's parent scope and a fresh weak
reference to its rendered object, run `process`, then reset the frame to
its empty default.  The model returns, in order: the result of `process`,
the frame that was installed during the call, and the frame left behind
after the call.  The incoming frame `lctx` is overwritten unconditionally. -/
def ComponentTask.poll {S Msg Props V UI Obj : Type} (impl : ComponentImpl S Msg Props V)
    (patchF : UI → V → Bool × UI) (objectOf : UI → Obj) (ts : ComponentTask S UI)
    (events : List (PollEvent Msg Props)) (_lctx : LocalContext Obj) :
    (ProcessResult × ComponentTask S UI × List (Effect Msg)) ×
      LocalContext Obj × LocalContext Obj :=
  let frame : LocalContext Obj :=
    { parent_scope := ts.parent_scope
      current_object := ts.ui_state.map fun ui => downgrade (objectOf ui) }
  (ComponentTask.process impl patchF ts events, frame, localContextDefault Obj)

/-- Whether `pat` is an initial segment of `l`. -/
def startsWithChars : List Char → List Char → Bool
  | [], _ => true
  | _ :: _, [] => false
  | a :: pat, b :: l => a == b && startsWithChars pat l

/-- Whether `pat` occurs contiguously anywhere inside `l`; used to state
that a panic message does (or does not) name a component. -/
def hasSubChars (pat : List Char) : List Char → Bool
  | [] => startsWithChars pat []
  | c :: rest => startsWithChars pat (c :: rest) || hasSubChars pat rest

/-- Concrete component used to exercise the model: state counts, message
`0` is ignored, message `1` requests a render, any other message defers a
job that will eventually produce the same message. -/
def demoImpl : ComponentImpl Nat Nat Nat Nat where
  update := fun s m =>
    if m = 0 then (s, UpdateAction.none)
    else if m = 1 then (s + 1, UpdateAction.render)
    else (s, UpdateAction.defer { result := m })
  change := fun _ p => Except.ok (p, UpdateAction.render)
  mountedHook := fun s => s + 1
  unmountedHook := fun s => s + 100
  view := fun s => s

/-- Concrete component whose `change` is the panicking default. -/
def demoDefaultChangeImpl : ComponentImpl Nat Nat Nat Nat where
  update := fun s _ => (s, UpdateAction.none)
  change := defaultChange Nat Nat Nat
  mountedHook := fun s => s
  unmountedHook := fun s => s
  view := fun s => s

/-- A patcher that always succeeds, storing the view as the new marker. -/
def demoPatchOk : Nat → Nat → Bool × Nat :=
  fun _ v => (true, v)

/-- A patcher that always reports failure. -/
def demoPatchFail : Nat → Nat → Bool × Nat :=
  fun ui _ => (false, ui)

/-- A concrete task state with a live rendered marker. -/
def demoTask : ComponentTask Nat Nat :=
  { scopeName := "DemoComponent", parent_scope := some "ParentComponent",
    state := 0, ui_state := some 0 }

/-- A concrete task state whose rendered marker is absent. -/
def demoTaskNoUi : ComponentTask Nat Nat :=
  { scopeName := "DemoComponent", parent_scope := none, state := 0, ui_state := none }

/-- A concrete channel pair with an empty user-message channel. -/
def demoChannels : Channels Nat Nat :=
  { user := [], sys := [ComponentMessage.mounted] }

/-- Each effect recorded while an envelope is handled by a continuing arm
of the loop is outside the view/patch family. -/
lemma handleMsg_inl_benign {S Msg Props V UI : Type} {impl : ComponentImpl S Msg Props V}
    {ts ts1 : ComponentTask S UI} {m : ComponentMessage Msg Props} {b1 : Bool}
    {tr : List (Effect Msg)}
    (h : handleMsg impl ts m = Sum.inl (ts1, b1, tr)) :
    ∀ e ∈ tr, benignEffect e = true := by
  cases m with
  | update msg =>
    rcases hu : impl.update ts.state msg with ⟨s1, act⟩
    cases act <;> simp [handleMsg, hu] at h <;> rcases h with ⟨h1, h2, h3⟩ <;>
      subst h3 <;> simp [benignEffect]
  | props p =>
    rcases hc : impl.change ts.state p with msg1 | ⟨s1, act⟩
    · simp [handleMsg, hc] at h
    · cases act <;> simp [handleMsg, hc] at h <;> rcases h with ⟨h1, h2, h3⟩ <;>
        subst h3 <;> simp [benignEffect]
  | mounted =>
    simp [handleMsg] at h
    rcases h with ⟨h1, h2, h3⟩
    subst h3
    simp [benignEffect]
  | unmounted =>
    rcases hui : ts.ui_state with _ | u <;> simp [handleMsg, hui] at h

/-- Each effect recorded while an envelope is handled by a returning arm
of the loop is outside the view/patch family. -/
lemma handleMsg_inr_benign {S Msg Props V UI : Type} {impl : ComponentImpl S Msg Props V}
    {ts ts1 : ComponentTask S UI} {m : ComponentMessage Msg Props} {r : ProcessResult}
    {tr : List (Effect Msg)}
    (h : handleMsg impl ts m = Sum.inr (r, ts1, tr)) :
    ∀ e ∈ tr, benignEffect e = true := by
  cases m with
  | update msg =>
    rcases hu : impl.update ts.state msg with ⟨s1, act⟩
    cases act <;> simp [handleMsg, hu] at h
  | props p =>
    rcases hc : impl.change ts.state p with msg1 | ⟨s1, act⟩
    · simp [handleMsg, hc] at h
      rcases h with ⟨h1, h2, h3⟩
      subst h3
      simp [benignEffect]
    · cases act <;> simp [handleMsg, hc] at h
  | mounted => simp [handleMsg] at h
  | unmounted =>
    rcases hui : ts.ui_state with _ | u <;> simp [handleMsg, hui] at h <;>
      rcases h with ⟨h1, h2, h3⟩ <;> subst h3 <;> simp [benignEffect]

/-- Draining a list of envelopes that all hit continuing arms is a prefix
computation of the loop: the loop on `msgs.map ready ++ rest` equals the
loop on `rest` started from the drained state, with the drain trace
prepended and the render flag accumulated. -/
lemma processLoop_drain {S Msg Props V UI : Type} (impl : ComponentImpl S Msg Props V)
    (patchF : UI → V → Bool × UI) (msgs : List (ComponentMessage Msg Props)) :
    ∀ (ts : ComponentTask S UI) (b : Bool)
      (out : ComponentTask S UI × Bool × List (Effect Msg))
      (rest : List (PollEvent Msg Props)),
      drain impl ts msgs = some out →
      processLoop impl patchF ts (List.map PollEvent.ready msgs ++ rest) b =
        ((processLoop impl patchF out.1 rest (b || out.2.1)).1,
         (processLoop impl patchF out.1 rest (b || out.2.1)).2.1,
         out.2.2 ++ (processLoop impl patchF out.1 rest (b || out.2.1)).2.2) := by
  induction msgs with
  | nil =>
    intro ts b out rest h
    simp [drain] at h
    subst h
    simp
  | cons m ms ih =>
    intro ts b out rest h
    rcases hm : handleMsg impl ts m with ⟨ta, ba, tra⟩ | done
    · simp only [drain, hm] at h
      rcases hrec : drain impl ta ms with _ | out2
      · rw [hrec] at h
        simp at h
      · rw [hrec] at h
        simp at h
        subst h
        rw [List.map_cons, List.cons_append]
        simp only [processLoop, hm]
        rw [ih ta (b || ba) out2 rest hrec]
        simp [Bool.or_assoc]
    · simp only [drain, hm] at h
      simp at h

/-- The effects recorded by a successful drain are all outside the
view/patch family. -/
lemma drain_benign {S Msg Props V UI : Type} (impl : ComponentImpl S Msg Props V)
    (msgs : List (ComponentMessage Msg Props)) :
    ∀ (ts : ComponentTask S UI) (out : ComponentTask S UI × Bool × List (Effect Msg)),
      drain impl ts msgs = some out → ∀ e ∈ out.2.2, benignEffect e = true := by
  induction msgs with
  | nil =>
    intro ts out h
    simp [drain] at h
    subst h
    simp
  | cons m ms ih =>
    intro ts out h
    rcases hm : handleMsg impl ts m with ⟨ta, ba, tra⟩ | done
    · simp only [drain, hm] at h
      rcases hrec : drain impl ta ms with _ | out2
      · rw [hrec] at h
        simp at h
      · rw [hrec] at h
        simp at h
        subst h
        intro e he
        rcases List.mem_append.mp he with hin | hin
        · exact handleMsg_inl_benign hm e hin
        · exact ih ta out2 hrec e hin
    · simp only [drain, hm] at h
      simp at h

/-- A trace of benign effects records no `view()` call. -/
lemma viewCount_eq_zero {Msg : Type} (tr : List (Effect Msg))
    (h : ∀ e ∈ tr, benignEffect e = true) : viewCount tr = 0 := by
  induction tr with
  | nil => rfl
  | cons e rest ih =>
    have he := h e (List.mem_cons_self e rest)
    have hrest : ∀ x ∈ rest, benignEffect x = true :=
      fun x hx => h x (List.mem_cons_of_mem e hx)
    cases e <;> simp [benignEffect] at he <;> simp [viewCount, ih hrest]

/-- A trace of benign effects records no `patch()` call. -/
lemma patchCount_eq_zero {Msg : Type} (tr : List (Effect Msg))
    (h : ∀ e ∈ tr, benignEffect e = true) : patchCount tr = 0 := by
  induction tr with
  | nil => rfl
  | cons e rest ih =>
    have he := h e (List.mem_cons_self e rest)
    have hrest : ∀ x ∈ rest, benignEffect x = true :=
      fun x hx => h x (List.mem_cons_of_mem e hx)
    cases e <;> simp [benignEffect] at he <;> simp [patchCount, ih hrest]

/-- The empty trace has the drive-pass shape. -/
lemma traceShape_nil {Msg : Type} (r : ProcessResult) :
    TraceShape r ([] : List (Effect Msg)) :=
  ⟨[], by simp, Or.inl rfl⟩

/-- A trace of benign effects has the drive-pass shape. -/
lemma traceShape_benign {Msg : Type} (r : ProcessResult) (tr : List (Effect Msg))
    (h : ∀ e ∈ tr, benignEffect e = true) : TraceShape r tr :=
  ⟨tr, h, Or.inl rfl⟩

/-- Prepending benign effects preserves the drive-pass shape. -/
lemma traceShape_append {Msg : Type} {r : ProcessResult} {tr tr2 : List (Effect Msg)}
    (htr : ∀ e ∈ tr, benignEffect e = true) (h : TraceShape r tr2) :
    TraceShape r (tr ++ tr2) := by
  rcases h with ⟨pre, hpre, hcase⟩
  refine ⟨tr ++ pre, ?_, ?_⟩
  · intro e he
    rcases List.mem_append.mp he with h1 | h1
    · exact htr e h1
    · exact hpre e h1
  · rcases hcase with rfl | rfl | ⟨rfl, hs⟩
    · exact Or.inl rfl
    · exact Or.inr (Or.inl (by simp))
    · exact Or.inr (Or.inr ⟨by simp, hs⟩)

/-- Every run of the drive loop produces a trace of the drive-pass shape:
drained-envelope effects, then at most one view/patch pass in which the
scope is muted immediately before the patch and unmuted immediately after
when the patch succeeds; a failed patch ends the trace at the patch call
with a panic. -/
lemma processLoop_shape {S Msg Props V UI : Type} (impl : ComponentImpl S Msg Props V)
    (patchF : UI → V → Bool × UI) (events : List (PollEvent Msg Props)) :
    ∀ (ts : ComponentTask S UI) (b : Bool),
      TraceShape (processLoop impl patchF ts events b).1
        (processLoop impl patchF ts events b).2.2 := by
  induction events with
  | nil =>
    intro ts b
    simp only [processLoop]
    exact traceShape_nil _
  | cons e rest ih =>
    intro ts b
    cases e with
    | ready m =>
      rcases hm : handleMsg impl ts m with ⟨ta, ba, tra⟩ | ⟨r1, t1, tr1⟩
      · simp only [processLoop, hm]
        exact traceShape_append (handleMsg_inl_benign hm) (ih ta (b || ba))
      · simp only [processLoop, hm]
        exact traceShape_benign _ _ (handleMsg_inr_benign hm)
    | pending =>
      cases b with
      | false =>
        simp only [processLoop, Bool.false_eq_true, if_false]
        exact traceShape_nil _
      | true =>
        simp only [processLoop, if_true]
        rcases hui : ts.ui_state with _ | u
        · simp only [renderStep, hui]
          exact traceShape_nil _
        · rcases hp : patchF u (impl.view ts.state) with ⟨ok, u1⟩
          cases ok with
          | false =>
            simp only [renderStep, hui, hp]
            exact ⟨[], by simp, Or.inr (Or.inr ⟨by simp, ⟨_, rfl⟩⟩)⟩
          | true =>
            simp only [renderStep, hui, hp]
            exact ⟨[], by simp, Or.inr (Or.inl (by simp))⟩
    | closed =>
      simp only [processLoop]
      exact traceShape_nil _

/-- A list is an initial segment of itself followed by anything. -/
lemma startsWithChars_append (l t : List Char) : startsWithChars l (l ++ t) = true := by
  induction l with
  | nil => rfl
  | cons c cs ih => simp [startsWithChars, ih]

/-- An initial segment is in particular a contiguous occurrence. -/
lemma hasSubChars_of_startsWith (pat l : List Char) (h : startsWithChars pat l = true) :
    hasSubChars pat l = true := by
  cases l with
  | nil => simpa [hasSubChars] using h
  | cons c cs => simp [hasSubChars, h]

/-- A contiguous occurrence survives prepending. -/
lemma hasSubChars_append_left (pre pat l : List Char) (h : hasSubChars pat l = true) :
    hasSubChars pat (pre ++ l) = true := by
  induction pre with
  | nil => simpa using h
  | cons c cs ih => simp [hasSubChars, ih]

/-- Characters of a concatenation are the concatenated characters. -/
lemma string_data_append (a b : String) : (a ++ b).data = a.data ++ b.data :=
  rfl

/-- The failed-patch panic message names the scope: the scope name occurs
contiguously in the message. -/
lemma patchFailMessage_names_scope (n : String) :
    hasSubChars n.data (patchFailMessage n).data = true := by
  have h1 : (patchFailMessage n).data =
      "not implemented: ".data ++
        (n.data ++ ": don\x27t know how to propagate failed patch".data) := by
    simp [patchFailMessage, string_data_append]
  rw [h1]
  exact hasSubChars_append_left _ _ _
    (hasSubChars_of_startsWith _ _ (startsWithChars_append _ _))

/-- C1: in a drive pass that drains the envelopes `msgs` and then finds no
envelope available, a view derivation and a patch call occur iff at least
one drained transition (update or change) returned `Render`; in that case
exactly one `view()` call and exactly one `patch()` call occur, and only
after all drained-envelope effects — render requests are coalesced across
the whole pass. -/
theorem C1_render_coalesced_once {S Msg Props V UI : Type}
    (impl : ComponentImpl S Msg Props V) (patchF : UI → V → Bool × UI)
    (ts ts1 : ComponentTask S UI) (msgs : List (ComponentMessage Msg Props))
    (r1 : Bool) (dtr : List (Effect Msg)) (u : UI)
    (hdrain : drain impl ts msgs = some (ts1, r1, dtr))
    (hui : ts1.ui_state = some u) :
    ∃ post,
      (ComponentTask.process impl patchF ts
          (List.map PollEvent.ready msgs ++ [PollEvent.pending])).2.2 = dtr ++ post ∧
      viewCount dtr = 0 ∧ patchCount dtr = 0 ∧
      (r1 = true →
        viewCount post = 1 ∧ patchCount post = 1 ∧ post.head? = some Effect.callView) ∧
      (r1 = false → post = []) := by
  have hb := drain_benign impl msgs ts (ts1, r1, dtr) hdrain
  have hkey := processLoop_drain impl patchF msgs ts false (ts1, r1, dtr)
    [PollEvent.pending] hdrain
  refine ⟨(processLoop impl patchF ts1 [PollEvent.pending] (false || r1)).2.2, ?_,
    viewCount_eq_zero _ hb, patchCount_eq_zero _ hb, ?_, ?_⟩
  · rw [ComponentTask.process, hkey]
  · intro hr
    subst hr
    simp only [Bool.false_or, processLoop, if_true]
    rcases hp : patchF u (impl.view ts1.state) with ⟨ok, u1⟩
    cases ok <;> simp [renderStep, hui, hp, viewCount, patchCount]
  · intro hr
    subst hr
    simp [processLoop]

/-- C1 witness: a concrete drain with one render-returning transition,
after which the pass performs exactly one view and one patch. -/
theorem C1_witness :
    drain demoImpl demoTask [ComponentMessage.update 1, ComponentMessage.update 0] =
      some ({ scopeName := "DemoComponent", parent_scope := some "ParentComponent",
              state := 1, ui_state := some 0 }, true,
            [Effect.callUpdate, Effect.callUpdate]) ∧
    ∃ post,
      (ComponentTask.process demoImpl demoPatchOk demoTask
          (List.map PollEvent.ready [ComponentMessage.update 1, ComponentMessage.update 0] ++
            [PollEvent.pending])).2.2 = [Effect.callUpdate, Effect.callUpdate] ++ post ∧
      viewCount ([Effect.callUpdate, Effect.callUpdate] : List (Effect Nat)) = 0 ∧
      patchCount ([Effect.callUpdate, Effect.callUpdate] : List (Effect Nat)) = 0 ∧
      (true = true →
        viewCount post = 1 ∧ patchCount post = 1 ∧ post.head? = some Effect.callView) ∧
      (true = false → post = []) :=
  ⟨rfl,
    C1_render_coalesced_once demoImpl demoPatchOk demoTask
      { scopeName := "DemoComponent", parent_scope := some "ParentComponent",
        state := 1, ui_state := some 0 }
      [ComponentMessage.update 1, ComponentMessage.update 0] true
      [Effect.callUpdate, Effect.callUpdate] 0 rfl rfl⟩

/-- C2: draining an `Unmounted` envelope calls `unmount()` on the marker
exactly once, fires the `unmounted()` hook exactly once, leaves the marker
absent, and returns a terminal result at once — further buffered events do
not affect the result or the trace. -/
theorem C2_unmounted_terminal {S Msg Props V UI : Type}
    (impl : ComponentImpl S Msg Props V) (patchF : UI → V → Bool × UI)
    (ts : ComponentTask S UI) (u : UI) (rest : List (PollEvent Msg Props)) (b : Bool)
    (hui : ts.ui_state = some u) :
    processLoop impl patchF ts (PollEvent.ready ComponentMessage.unmounted :: rest) b =
      (ProcessResult.ready,
       { ts with state := impl.unmountedHook ts.state, ui_state := none },
       [Effect.callUnmount, Effect.callUnmounted]) := by
  simp [processLoop, handleMsg, hui]

/-- C2 witness: a concrete `Unmounted` drain, with a `Mounted` envelope
still buffered behind it that is never processed. -/
theorem C2_witness :
    processLoop demoImpl demoPatchOk demoTask
        [PollEvent.ready ComponentMessage.unmounted, PollEvent.ready ComponentMessage.mounted]
        true =
      (ProcessResult.ready,
       { scopeName := "DemoComponent", parent_scope := some "ParentComponent",
         state := 100, ui_state := none },
       [Effect.callUnmount, Effect.callUnmounted]) :=
  C2_unmounted_terminal demoImpl demoPatchOk demoTask 0
    [PollEvent.ready ComponentMessage.mounted] true rfl

/-- C3 counterexample: two `Mounted` envelopes drained in one pass invoke
the `mounted()` hook twice, not exactly once per task lifetime. -/
theorem C3_counterexample :
    mountedCount
        (ComponentTask.process demoImpl demoPatchOk demoTask
          [PollEvent.ready ComponentMessage.mounted, PollEvent.ready ComponentMessage.mounted,
           PollEvent.pending]).2.2 = 2 ∧
    mountedCount
        (ComponentTask.process demoImpl demoPatchOk demoTask
          [PollEvent.ready ComponentMessage.mounted, PollEvent.ready ComponentMessage.mounted,
           PollEvent.pending]).2.2 ≠ 1 :=
  ⟨rfl, by decide⟩

/-- C3 (amended): `mounted()` fires once per drained `Mounted` envelope,
with no once-per-lifetime guard: a pass that drains `n` `Mounted`
envelopes and then suspends invokes the hook exactly `n` times (the
framework sends exactly one such envelope in normal operation). -/
theorem C3_mounted_once_per_envelope {S Msg Props V UI : Type}
    (impl : ComponentImpl S Msg Props V) (patchF : UI → V → Bool × UI)
    (ts : ComponentTask S UI) (n : Nat) :
    ComponentTask.process impl patchF ts
        (List.replicate n
            (PollEvent.ready (ComponentMessage.mounted : ComponentMessage Msg Props)) ++
          [PollEvent.pending]) =
      (ProcessResult.pending, { ts with state := Nat.iterate impl.mountedHook n ts.state },
       List.replicate n Effect.callMounted) := by
  simp only [ComponentTask.process]
  induction n generalizing ts with
  | zero => simp [processLoop]
  | succ k ih =>
    rw [List.replicate_succ, List.cons_append]
    simp only [processLoop, handleMsg, Bool.or_false]
    rw [ih]
    simp [List.replicate_succ]

/-- C4 counterexample: with the default `change`, a `Props` envelope
panics with the fixed message `not implemented: add a Component::change()
implementation`, which does not contain the component type name. -/
theorem C4_counterexample :
    ComponentTask.process demoDefaultChangeImpl demoPatchOk
        { scopeName := "ExampleSubComponent", parent_scope := some "ParentComponent",
          state := 0, ui_state := some 0 }
        [PollEvent.ready (ComponentMessage.props 7)] =
      (ProcessResult.panicked changeUnimplementedMessage,
       { scopeName := "ExampleSubComponent", parent_scope := some "ParentComponent",
         state := 0, ui_state := some 0 },
       [Effect.callChange]) ∧
    hasSubChars "ExampleSubComponent".data changeUnimplementedMessage.data = false :=
  ⟨rfl, by decide⟩

/-- C4 (amended): for a component type that does not override `change`,
processing a `Props` envelope is fatal: the default implementation aborts
the pass with the contract-violation signal `not implemented: add a
Component::change() implementation` instead of returning an
`UpdateAction`; the signal is a constant of the default implementation and
does not name the component type. -/
theorem C4_default_change_fatal {S Msg Props V UI : Type}
    (impl : ComponentImpl S Msg Props V) (patchF : UI → V → Bool × UI)
    (ts : ComponentTask S UI) (p : Props) (rest : List (PollEvent Msg Props)) (b : Bool)
    (hchange : ∀ s q, impl.change s q = defaultChange S Msg Props s q) :
    processLoop impl patchF ts (PollEvent.ready (ComponentMessage.props p) :: rest) b =
      (ProcessResult.panicked changeUnimplementedMessage, ts, [Effect.callChange]) := by
  simp [processLoop, handleMsg, hchange, defaultChange]

/-- C4 witness: the default-change component aborts on a concrete `Props`
envelope. -/
theorem C4_witness :
    processLoop demoDefaultChangeImpl demoPatchOk demoTask
        [PollEvent.ready (ComponentMessage.props 3)] false =
      (ProcessResult.panicked changeUnimplementedMessage, demoTask, [Effect.callChange]) :=
  C4_default_change_fatal demoDefaultChangeImpl demoPatchOk demoTask 3 [] false
    (fun _ _ => rfl)

/-- C5: when the patcher reports failure during a render pass, the task
aborts with a panic whose message contains the component's scope name; the
patch is attempted exactly once, with no retry, recovery or normal
return. -/
theorem C5_failed_patch_fatal {S Msg Props V UI : Type}
    (impl : ComponentImpl S Msg Props V) (patchF : UI → V → Bool × UI)
    (ts : ComponentTask S UI) (m : Msg) (s1 : S) (u u1 : UI)
    (hupd : impl.update ts.state m = (s1, UpdateAction.render))
    (hui : ts.ui_state = some u)
    (hpatch : patchF u (impl.view s1) = (false, u1)) :
    ComponentTask.process impl patchF ts
        [PollEvent.ready (ComponentMessage.update m), PollEvent.pending] =
      (ProcessResult.panicked (patchFailMessage ts.scopeName), { ts with state := s1 },
       [Effect.callUpdate, Effect.callView, Effect.mute, Effect.callPatch]) ∧
    hasSubChars ts.scopeName.data (patchFailMessage ts.scopeName).data = true := by
  refine ⟨?_, patchFailMessage_names_scope ts.scopeName⟩
  simp [ComponentTask.process, processLoop, handleMsg, hupd, renderStep, hui, hpatch]

/-- C5 witness: a concrete failing patch aborts the pass with the scope
name in the panic message. -/
theorem C5_witness :
    ComponentTask.process demoImpl demoPatchFail demoTask
        [PollEvent.ready (ComponentMessage.update 1), PollEvent.pending] =
      (ProcessResult.panicked (patchFailMessage "DemoComponent"),
       { scopeName := "DemoComponent", parent_scope := some "ParentComponent",
         state := 1, ui_state := some 0 },
       [Effect.callUpdate, Effect.callView, Effect.mute, Effect.callPatch]) ∧
    hasSubChars "DemoComponent".data (patchFailMessage "DemoComponent").data = true :=
  C5_failed_patch_fatal demoImpl demoPatchFail demoTask 1 1 0 0 rfl rfl rfl

/-- C6: when the merged stream reports end-of-stream (both origins
permanently closed), the task concludes with the same normal, non-error
terminal result as the `Unmounted` path, with no panic and no further
effects. -/
theorem C6_channel_exhaustion_normal_termination {S Msg Props V UI : Type}
    (impl : ComponentImpl S Msg Props V) (patchF : UI → V → Bool × UI)
    (ts ts2 : ComponentTask S UI) (rest rest2 : List (PollEvent Msg Props)) (b b2 : Bool) :
    processLoop impl patchF ts (PollEvent.closed :: rest) b =
      (ProcessResult.ready, ts, []) ∧
    (processLoop impl patchF ts (PollEvent.closed :: rest) b).1 =
      (processLoop impl patchF ts2 (PollEvent.ready ComponentMessage.unmounted :: rest2) b2).1 := by
  refine ⟨by simp [processLoop], ?_⟩
  rcases hui : ts2.ui_state with _ | u <;> simp [processLoop, handleMsg, hui]

/-- C7 counterexample: on a failing patch the trace ends at the patch call
— the patch is muted before but never unmuted after, because the task
aborts fatally. -/
theorem C7_counterexample :
    (ComponentTask.process demoImpl demoPatchFail demoTask
        [PollEvent.ready (ComponentMessage.update 1), PollEvent.pending]).2.2 =
      [Effect.callUpdate, Effect.callView, Effect.mute, Effect.callPatch] ∧
    (ComponentTask.process demoImpl demoPatchFail demoTask
        [PollEvent.ready (ComponentMessage.update 1), PollEvent.pending]).1 =
      ProcessResult.panicked (patchFailMessage "DemoComponent") :=
  ⟨rfl, rfl⟩

/-- C7 (amended): every patch call of a drive pass is immediately preceded
by muting the task's own Scope (after the single view derivation); when
the patch succeeds the Scope is unmuted immediately after, and when the
patch fails the task aborts fatally with the Scope still muted.  All other
effects of the pass are outside the view/mute/patch/unmute family. -/
theorem C7_patch_mute_bracketing {S Msg Props V UI : Type}
    (impl : ComponentImpl S Msg Props V) (patchF : UI → V → Bool × UI)
    (ts : ComponentTask S UI) (events : List (PollEvent Msg Props)) :
    ∃ pre, (∀ e ∈ pre, benignEffect e = true) ∧
      ((ComponentTask.process impl patchF ts events).2.2 = pre ∨
       (ComponentTask.process impl patchF ts events).2.2 =
         pre ++ [Effect.callView, Effect.mute, Effect.callPatch, Effect.unmute] ∨
       ((ComponentTask.process impl patchF ts events).2.2 =
          pre ++ [Effect.callView, Effect.mute, Effect.callPatch] ∧
        ∃ s, (ComponentTask.process impl patchF ts events).1 = ProcessResult.panicked s)) :=
  processLoop_shape impl patchF events ts false

/-- C8: a `Deferred(job)` action spawns the job; the job's eventual result
message is sent through the task's own Scope into the user-message
channel, and the merged stream wraps it as an ordinary `Update` envelope
delivered back into the same task's stream. -/
theorem C8_deferred_result_reenters_stream {S Msg Props V UI : Type}
    (impl : ComponentImpl S Msg Props V) (patchF : UI → V → Bool × UI)
    (ts : ComponentTask S UI) (m : Msg) (s1 : S) (j : Job Msg) (ch : Channels Msg Props)
    (hupd : impl.update ts.state m = (s1, UpdateAction.defer j))
    (hch : ch.user = []) :
    ComponentTask.process impl patchF ts
        [PollEvent.ready (ComponentMessage.update m), PollEvent.pending] =
      (ProcessResult.pending, { ts with state := s1 },
       [Effect.callUpdate, Effect.spawn j.result]) ∧
    (run_job ch j).user = ch.user ++ [j.result] ∧
    mergedNext (run_job ch j) MergeChoice.user =
      some (ComponentMessage.update j.result, { run_job ch j with user := [] }) := by
  refine ⟨?_, rfl, ?_⟩
  · simp [ComponentTask.process, processLoop, handleMsg, hupd]
  · simp [mergedNext, run_job, sendMessage, hch]

/-- C8 witness: a concrete deferred job whose result message 5 re-enters
the stream as `Update 5`. -/
theorem C8_witness :
    ComponentTask.process demoImpl demoPatchOk demoTask
        [PollEvent.ready (ComponentMessage.update 5), PollEvent.pending] =
      (ProcessResult.pending,
       { scopeName := "DemoComponent", parent_scope := some "ParentComponent",
         state := 0, ui_state := some 0 },
       [Effect.callUpdate, Effect.spawn 5]) ∧
    (run_job demoChannels { result := 5 }).user = demoChannels.user ++ [5] ∧
    mergedNext (run_job demoChannels { result := 5 }) MergeChoice.user =
      some (ComponentMessage.update 5,
        { run_job demoChannels { result := 5 } with user := [] }) :=
  C8_deferred_result_reenters_stream demoImpl demoPatchOk demoTask 5 0
    { result := 5 } demoChannels rfl rfl

/-- C9: each `poll` installs a fresh local-context frame — the task's
parent scope and a weak reference to its current rendered object —
independent of whatever frame was there before, resets the frame to its
empty default before returning, and `current_object()` on the default
frame returns `none`; the drive result is that of `process`. -/
theorem C9_local_context_fresh_per_poll {S Msg Props V UI Obj : Type}
    (impl : ComponentImpl S Msg Props V) (patchF : UI → V → Bool × UI)
    (objectOf : UI → Obj) (ts : ComponentTask S UI)
    (events : List (PollEvent Msg Props)) (lctx lctx2 : LocalContext Obj) (u : UI)
    (hui : ts.ui_state = some u) :
    (ComponentTask.poll impl patchF objectOf ts events lctx).2.1 =
      { parent_scope := ts.parent_scope,
        current_object := some (downgrade (objectOf u)) } ∧
    (ComponentTask.poll impl patchF objectOf ts events lctx).2.1 =
      (ComponentTask.poll impl patchF objectOf ts events lctx2).2.1 ∧
    (ComponentTask.poll impl patchF objectOf ts events lctx).2.2 =
      localContextDefault Obj ∧
    currentObject (localContextDefault Obj) = none ∧
    (ComponentTask.poll impl patchF objectOf ts events lctx).1 =
      ComponentTask.process impl patchF ts events := by
  refine ⟨?_, rfl, rfl, rfl, rfl⟩
  simp [ComponentTask.poll, hui]

/-- C9 witness: a stale incoming frame is overwritten by the fresh frame
and reset to the default afterwards. -/
theorem C9_witness :
    (ComponentTask.poll demoImpl demoPatchOk (fun ui => ui + 1000) demoTask
        [PollEvent.pending]
        { parent_scope := some "Stale", current_object := some (downgrade 99) }).2.1 =
      { parent_scope := some "ParentComponent",
        current_object := some (downgrade 1000) } ∧
    (ComponentTask.poll demoImpl demoPatchOk (fun ui => ui + 1000) demoTask
        [PollEvent.pending]
        { parent_scope := some "Stale", current_object := some (downgrade 99) }).2.1 =
      (ComponentTask.poll demoImpl demoPatchOk (fun ui => ui + 1000) demoTask
        [PollEvent.pending] (localContextDefault Nat)).2.1 ∧
    (ComponentTask.poll demoImpl demoPatchOk (fun ui => ui + 1000) demoTask
        [PollEvent.pending]
        { parent_scope := some "Stale", current_object := some (downgrade 99) }).2.2 =
      localContextDefault Nat ∧
    currentObject (localContextDefault Nat) = none ∧
    (ComponentTask.poll demoImpl demoPatchOk (fun ui => ui + 1000) demoTask
        [PollEvent.pending]
        { parent_scope := some "Stale", current_object := some (downgrade 99) }).1 =
      ComponentTask.process demoImpl demoPatchOk demoTask [PollEvent.pending] :=
  C9_local_context_fresh_per_poll demoImpl demoPatchOk (fun ui => ui + 1000) demoTask
    [PollEvent.pending]
    { parent_scope := some "Stale", current_object := some (downgrade 99) }
    (localContextDefault Nat) 0 rfl

/-- C10: with a render pending and the stream reporting no envelope
available, but the rendered-object marker absent, the pass concludes with
a terminal result, calling neither `view()` nor `patch()` and not
panicking. -/
theorem C10_render_without_ui_concludes {S Msg Props V UI : Type}
    (impl : ComponentImpl S Msg Props V) (patchF : UI → V → Bool × UI)
    (ts : ComponentTask S UI) (rest : List (PollEvent Msg Props))
    (hui : ts.ui_state = none) :
    processLoop impl patchF ts (PollEvent.pending :: rest) true =
      (ProcessResult.ready, ts, []) := by
  simp [processLoop, renderStep, hui]

/-- C10 witness: the marker-free task concludes cleanly on a pending
render. -/
theorem C10_witness :
    processLoop demoImpl demoPatchOk demoTaskNoUi [PollEvent.pending] true =
      (ProcessResult.ready, demoTaskNoUi, []) :=
  C10_render_without_ui_concludes demoImpl demoPatchOk demoTaskNoUi [] rfl

end Vgtk
